import Mathlib

/-!
Verification of the interview-flow front end (`ResumeUpload` / `TechnicalInterview`).

The two React components are shallowly embedded: component state becomes a
structure, each event handler becomes a pure state-transition function, and
asynchronous effects (network calls, toasts, completion callbacks) become
explicit outputs of those functions.  JavaScript string truthiness (`s ? a : b`)
is rendered as a comparison with the empty string, and `String.prototype.trim`
is rendered by `jsTrim` below.
-/

/-! ### JavaScript string primitives -/

/-- JS whitespace test restricted to the common ASCII whitespace characters,
used by `jsTrim` (the model of `String.prototype.trim`). -/
def isWsChar (c : Char) : Bool :=
  c == ' ' || c == '\t' || c == '\n' || c == '\r'

/-- Drop leading whitespace characters from a character list. -/
def dropWs : List Char → List Char
  | [] => []
  | c :: cs => if isWsChar c then dropWs cs else c :: cs

/-- Model of `String.prototype.trim`: strip whitespace from both ends. -/
def jsTrim (s : String) : String :=
  ⟨(dropWs (dropWs s.data |>.reverse)).reverse⟩

/-- Whether the first list is a prefix of the second, comparing with `==`. -/
def isPrefixList : List Char → List Char → Bool
  | [], _ => true
  | _ :: _, [] => false
  | a :: as, b :: bs => (a == b) && isPrefixList as bs

/-- Substring search on character lists (model of `String.prototype.includes`). -/
def listContains : List Char → List Char → Bool
  | _, [] => true
  | [], _ :: _ => false
  | h :: t, n :: ns => isPrefixList (n :: ns) (h :: t) || listContains t (n :: ns)

/-- Model of JavaScript `hay.includes(needle)`. -/
def strContains (hay needle : String) : Bool :=
  listContains hay.data needle.data

/-! ### Session identifier generation (`generateUUID`) -/

/-- Lowercase hex digit of a nibble `n < 16`, as `v.toString(16)` yields it. -/
def hexDigit (n : Nat) : Char :=
  if n < 10 then Char.ofNat (48 + n) else Char.ofNat (87 + n)

/-- The template string of `generateUUID`. -/
def uuidTemplate : List Char := "xxxxxxxx-xxxx-4xxx-yxxx-xxxxxxxxxxxx".data

/-- The `replace(/[xy]/g, ...)` traversal of `generateUUID`: each `x` or `y`
consumes the next random nibble `r k` (the value of `Math.random()*16|0`);
an `x` becomes `r.toString(16)`, a `y` becomes `((r & 3) | 8).toString(16)`,
any other character is kept. -/
def genUUIDAux (r : Nat → Nat) : List Char → Nat → List Char
  | [], _ => []
  | c :: rest, k =>
    if c = 'x' then hexDigit (r k) :: genUUIDAux r rest (k + 1)
    else if c = 'y' then hexDigit ((r k &&& 3) ||| 8) :: genUUIDAux r rest (k + 1)
    else c :: genUUIDAux r rest k

/-- Model of `generateUUID`, parameterized by the stream `r` of random nibbles
drawn by successive `Math.random()*16|0` calls. -/
def generateUUID (r : Nat → Nat) : String :=
  ⟨genUUIDAux r uuidTemplate 0⟩

/-- Lowercase hexadecimal digit test. -/
def isHexChar (c : Char) : Bool :=
  ('0' ≤ c && c ≤ '9') || ('a' ≤ c && c ≤ 'f')

/-- What one position of a canonical UUID may contain. -/
inductive UuidSlot where
  | hex
  | dash
  | four
  | variant

/-- The canonical grouped-hex layout, position by position: groups of
8, 4, 4, 4 and 12 hex digits separated by hyphens, with the version nibble
(first character of the third group) fixed to `4` and the variant nibble
(first character of the fourth group) restricted to `{8, 9, a, b}`. -/
def uuidSlots : List UuidSlot :=
  [.hex, .hex, .hex, .hex, .hex, .hex, .hex, .hex, .dash,
   .hex, .hex, .hex, .hex, .dash,
   .four, .hex, .hex, .hex, .dash,
   .variant, .hex, .hex, .hex, .dash,
   .hex, .hex, .hex, .hex, .hex, .hex, .hex, .hex, .hex, .hex, .hex, .hex]

/-- Whether a character is allowed in a slot. -/
def slotOk (c : Char) : UuidSlot → Bool
  | .hex => isHexChar c
  | .dash => c == '-'
  | .four => c == '4'
  | .variant => c == '8' || c == '9' || c == 'a' || c == 'b'

/-- Character-by-character layout check (false on any length mismatch). -/
def checkSlots : List Char → List UuidSlot → Bool
  | [], [] => true
  | c :: cs, t :: ts => slotOk c t && checkSlots cs ts
  | _, _ => false

/-- A string is in canonical UUID shape: 36 characters and positionally
valid for `uuidSlots`. -/
def uuidCanonical (s : String) : Bool :=
  (s.length == 36) && checkSlots s.data uuidSlots

/-! ### Upload step (`ResumeUpload`) -/

/-- A file as the upload handler sees it: a name and a declared MIME type
(`""` models an absent type). -/
structure UploadFile where
  name : String
  type : String
deriving DecidableEq

/-- Component state of `ResumeUpload`. -/
structure UploadState where
  resumeFile : Option UploadFile
  resumeContent : String
  isProcessing : Bool
  sessionId : String
deriving DecidableEq

/-- Outcome of the extraction backend call awaited by `handleFileUpload`. -/
inductive ExtractResult where
  | ok (chunks : Nat)
  | err
deriving DecidableEq

/-- Observable outcome of one `handleFileUpload` run: the final component
state, the toast titles raised, and whether the extraction network call
was issued. -/
structure UploadOutcome where
  state : UploadState
  toasts : List String
  networkCalled : Bool
deriving DecidableEq

/-- Model of `handleFileUpload`: reject non-PDF declared types with a toast and
no further effect; otherwise store the file, flip to processing, store the
freshly generated session id `id`, await the extraction result `res`, and on
success derive the status text; `isProcessing` is reset in the `finally`. -/
def handleFileUpload (file : UploadFile) (id : String) (res : ExtractResult)
    (s : UploadState) : UploadOutcome :=
  if file.type = "" || !(strContains file.type "pdf") then
    { state := s, toasts := ["Invalid file type"], networkCalled := false }
  else
    let s1 : UploadState :=
      { s with resumeFile := some file, isProcessing := true, sessionId := id }
    match res with
    | .ok n =>
      { state := { s1 with
            resumeContent := s!"Indexed {n} chunks for session {id}",
            isProcessing := false },
        toasts := ["Resume processed successfully"],
        networkCalled := true }
    | .err =>
      { state := { s1 with isProcessing := false },
        toasts := ["Error processing resume"],
        networkCalled := true }

/-! ### Interview step (`TechnicalInterview`) — data model -/

/-- One collected answer as built by `handleNext`. -/
structure Answer where
  question : String
  answer : String
  type : String
deriving DecidableEq

/-- Component state of `TechnicalInterview` (the `questions` list, fixed after
the fetch, is passed separately to the handlers that read it). -/
structure InterviewState where
  currentQuestionIndex : Nat
  answers : List Answer
  currentAnswer : String
  isRecording : Bool
  answeredOnce : List Nat
  transcript : String
  interim : String
  isUsingWs : Bool
deriving DecidableEq

/-- Initial state of the interview component. -/
def initState : InterviewState :=
  { currentQuestionIndex := 0, answers := [], currentAnswer := "",
    isRecording := false, answeredOnce := [], transcript := "", interim := "",
    isUsingWs := false }

/-- The `COUNT_ROLE` constant of the component (kept in sync with the
`fetchTechnicalQuestions(sessionId, role, 7, 8)` call). -/
def COUNT_ROLE : Nat := 7

/-- Model of `new Set(prev).add(i)`: insertion-ordered set add. -/
def addOnce (i : Nat) (l : List Nat) : List Nat :=
  if i ∈ l then l else l ++ [i]

/-- The transcript expression shared by `handleNext` and the `Textarea` value:
`(transcript + (interim ? (transcript ? " " : "") + interim : "")).trim()`. -/
def effectiveTranscript (s : InterviewState) : String :=
  jsTrim (s.transcript ++
    (if s.interim = "" then ""
     else (if s.transcript = "" then "" else " ") ++ s.interim))

/-- The displayed value of the answer `Textarea`:
`effectiveTranscript || currentAnswer`. -/
def displayedValue (s : InterviewState) : String :=
  if effectiveTranscript s = "" then s.currentAnswer else effectiveTranscript s

/-- The answer object built at the top of `handleNext`: question text by index,
`finalAnswer || currentAnswer`, and the ordinal source-type tag. -/
def mkNewAnswer (questions : List String) (s : InterviewState) : Answer :=
  { question := (questions.get? s.currentQuestionIndex).getD "",
    answer := if effectiveTranscript s = "" then s.currentAnswer
              else effectiveTranscript s,
    type := if s.currentQuestionIndex < COUNT_ROLE then "role" else "resume" }

/-- Model of `handleNext`: append the new answer; if questions remain, advance
the index, stop recording, clear both transcript fields and mark the old index
answered (returning `none`); otherwise return the full sequence as the
`onNext` payload. -/
def handleNext (questions : List String) (s : InterviewState) :
    InterviewState × Option (List Answer) :=
  let updatedAnswers := s.answers ++ [mkNewAnswer questions s]
  if s.currentQuestionIndex < questions.length - 1 then
    ({ s with answers := updatedAnswers,
              currentQuestionIndex := s.currentQuestionIndex + 1,
              isRecording := false, transcript := "", interim := "",
              answeredOnce := addOnce s.currentQuestionIndex s.answeredOnce },
     none)
  else
    ({ s with answers := updatedAnswers }, some updatedAnswers)

/-- Model of `handlePrevious`: when not on the first question, step the index
back and restore `answers[currentQuestionIndex - 1]?.answer || ""` into the
editable answer field. -/
def handlePrevious (s : InterviewState) : InterviewState :=
  if 0 < s.currentQuestionIndex then
    { s with currentQuestionIndex := s.currentQuestionIndex - 1,
             currentAnswer :=
               ((s.answers.get? (s.currentQuestionIndex - 1)).map
                 Answer.answer).getD "" }
  else s

/-- User-level navigation actions on the interview step. -/
inductive NavAction where
  | advance
  | retreat
deriving DecidableEq

/-- Run a list of navigation actions from a state.  `onNext` payloads are
collected; when `handleNext` completes the interview the parent swaps the
step out, so the run stops at the first payload. -/
def runNav (questions : List String) : List NavAction → InterviewState →
    InterviewState × List (List Answer)
  | [], s => (s, [])
  | NavAction.advance :: rest, s =>
    let r := handleNext questions s
    match r.2 with
    | some payload => (r.1, [payload])
    | none => runNav questions rest r.1
  | NavAction.retreat :: rest, s => runNav questions rest (handlePrevious s)

/-! ### Speech capture -/

/-- One native-recognition result event, as traversed by the
`for (let i = event.resultIndex; ...)` loop: the results from `resultIndex`
on, each a flag `isFinal` with its transcript fragment. -/
def SpeechEvent := List (Bool × String)

/-- Final fragments of an event, in loop order. -/
def finalsOf (e : SpeechEvent) : List String :=
  e.filterMap fun r => if r.1 then some r.2 else none

/-- Not-yet-final fragments of an event, in loop order. -/
def interimsOf (e : SpeechEvent) : List String :=
  e.filterMap fun r => if r.1 then none else some r.2

/-- Model of `rec.onresult`: concatenate the event's final fragments into
`finalText` and its interim fragments into `interimText`; if `finalText` is
non-empty, append its trimmed form to the committed transcript with a single
separating space when the transcript is already non-empty; replace the
interim transcript with the trimmed `interimText`. -/
def onresult (e : SpeechEvent) (s : InterviewState) : InterviewState :=
  let finalText := String.join (finalsOf e)
  let interimText := String.join (interimsOf e)
  let s1 := if finalText = "" then s
            else { s with transcript :=
                     (if s.transcript = "" then "" else s.transcript ++ " ") ++
                     jsTrim finalText }
  { s1 with interim := jsTrim interimText }

/-- Process a sequence of native-recognition events in arrival order. -/
def foldEvents (es : List SpeechEvent) (s : InterviewState) : InterviewState :=
  es.foldl (fun t e => onresult e t) s

/-- Space-joined concatenation of a list of strings. -/
def joinSp : List String → String
  | [] => ""
  | [x] => x
  | x :: y :: rest => x ++ " " ++ joinSp (y :: rest)

/-- The trimmed per-event finalized text of each event whose finalized text is
non-empty, in arrival order. -/
def eventFinalPieces (es : List SpeechEvent) : List String :=
  es.filterMap fun e =>
    if String.join (finalsOf e) = "" then none
    else some (jsTrim (String.join (finalsOf e)))

/-! ### Transport selection and the record toggle -/

/-- Environment probed at recording start: whether a native speech-recognition
constructor exists and whether the page is a secure context. -/
structure SttEnv where
  hasNative : Bool
  secure : Bool
deriving DecidableEq

/-- Synchronous outcome of `startSTT`. -/
inductive StartOutcome where
  | native
  | socketRelay
  | insecureError
deriving DecidableEq

/-- Model of `startSTT`.  Without a native constructor: insecure context
aborts with an error, otherwise the WebSocket/MediaRecorder fallback is
launched (asynchronously — no synchronous state change).  With a native
constructor: insecure context aborts with an error, otherwise the recognizer
is configured and started, clearing both transcript fields and entering the
recording state. -/
def startSTT (env : SttEnv) (s : InterviewState) :
    InterviewState × StartOutcome :=
  if env.hasNative = false then
    if env.secure = false then (s, .insecureError)
    else (s, .socketRelay)
  else if env.secure = false then (s, .insecureError)
  else ({ s with transcript := "", interim := "", isRecording := true },
        .native)

/-- Model of `stopSTT` (via `stopWSRecorder` when the socket transport is in
use): leave the recording state and mark the current index as answered. -/
def stopSTT (s : InterviewState) : InterviewState :=
  if s.isUsingWs then
    { s with isUsingWs := false, isRecording := false,
             answeredOnce := addOnce s.currentQuestionIndex s.answeredOnce }
  else
    { s with isRecording := false,
             answeredOnce := addOnce s.currentQuestionIndex s.answeredOnce }

/-- What a record-toggle interaction did. -/
inductive ToggleEffect where
  | none
  | stopped
  | startAttempt (o : StartOutcome)
deriving DecidableEq

/-- Model of `toggleRecording`: a no-op when the current index was already
answered; otherwise stop or start per the current recording state. -/
def toggleRecording (env : SttEnv) (s : InterviewState) :
    InterviewState × ToggleEffect :=
  if s.currentQuestionIndex ∈ s.answeredOnce then (s, .none)
  else if s.isRecording then (stopSTT s, .stopped)
  else
    let r := startSTT env s
    (r.1, .startAttempt r.2)

/-! ### SocketRelay inbound messages -/

/-- Payload of one inbound WebSocket message: a text frame or binary data. -/
inductive WsData where
  | text (payload : String)
  | binary
deriving DecidableEq

/-- Model of `typeof ev.data === 'string' ? ev.data : ''`. -/
def wsPayloadText : WsData → String
  | .text t => t
  | .binary => ""

/-- Model of `ws.onmessage`: overwrite the committed transcript with the
payload text and leave the recording state. -/
def ws_onmessage (d : WsData) (s : InterviewState) : InterviewState :=
  { s with transcript := wsPayloadText d, isRecording := false,
           isUsingWs := false }

/-! ## Claim C6 — transport selection -/

/-- Claim C6: transport selection at recording start is a deterministic
function of (native-capability-present, secure-context): native capability in
a secure context selects the NativeRecognition transport; no native capability
in a secure context selects the SocketRelay transport; in an insecure context
the start attempt aborts with an error for either capability value and the
component state is unchanged. -/
theorem startSTT_transport_selection (s : InterviewState) :
    (startSTT ⟨true, true⟩ s).2 = StartOutcome.native ∧
    (startSTT ⟨false, true⟩ s).2 = StartOutcome.socketRelay ∧
    (∀ hn : Bool, startSTT ⟨hn, false⟩ s = (s, StartOutcome.insecureError)) := by
  refine ⟨rfl, rfl, fun hn => ?_⟩
  cases hn <;> rfl

/-! ## Claim C7 — recorded indices disable the toggle -/

/-- Claim C7: once the current question index has been marked recorded,
toggling the record control is a no-op — the state is unchanged and no
recording is started or stopped. -/
theorem toggleRecording_noop (env : SttEnv) (s : InterviewState)
    (h : s.currentQuestionIndex ∈ s.answeredOnce) :
    toggleRecording env s = (s, ToggleEffect.none) := by
  simp [toggleRecording, h]

/-- Witness for C7 at a concrete recorded state. -/
theorem toggleRecording_noop_witness :
    toggleRecording ⟨true, true⟩
      { initState with answeredOnce := [0] } =
      ({ initState with answeredOnce := [0] }, ToggleEffect.none) :=
  toggleRecording_noop ⟨true, true⟩ { initState with answeredOnce := [0] }
    (by decide)

/-! ## Claim C8 — non-PDF files are rejected without side effects -/

/-- Claim C8: for every file whose declared type does not include `"pdf"`
(including an empty type), the upload handler rejects it with a user-visible
error toast, performs no network call, and leaves the component state
unchanged. -/
theorem handleFileUpload_rejects_non_pdf (s : UploadState) (file : UploadFile)
    (id : String) (res : ExtractResult)
    (h : file.type = "" ∨ strContains file.type "pdf" = false) :
    handleFileUpload file id res s =
      { state := s, toasts := ["Invalid file type"], networkCalled := false } := by
  rcases h with h | h <;> simp [handleFileUpload, h]

/-- Witness for C8 on a concrete plain-text file. -/
theorem handleFileUpload_rejects_non_pdf_witness :
    handleFileUpload ⟨"notes.txt", "text/plain"⟩ "sid" ExtractResult.err
      ⟨none, "", false, ""⟩ =
      { state := ⟨none, "", false, ""⟩, toasts := ["Invalid file type"],
        networkCalled := false } :=
  handleFileUpload_rejects_non_pdf ⟨none, "", false, ""⟩
    ⟨"notes.txt", "text/plain"⟩ "sid" ExtractResult.err (Or.inr (by decide))

/-! ## Claim C10 — SocketRelay inbound messages -/

/-- Claim C10: any inbound connection message — text or not — ends the
recording state, and its payload replaces the entire committed transcript
(independently of the previous transcript) rather than being appended; a
non-string payload replaces the committed transcript with the empty string. -/
theorem ws_onmessage_replaces_transcript (d : WsData) (s : InterviewState) :
    (ws_onmessage d s).transcript = wsPayloadText d ∧
    (ws_onmessage d s).isRecording = false ∧
    (ws_onmessage d s).isUsingWs = false ∧
    wsPayloadText WsData.binary = "" :=
  ⟨rfl, rfl, rfl, rfl⟩

/-! ## Claim C5 — failed extraction -/

/-- Claim C5 counterexample: with a failing extraction call, the post-failure
state differs from the pre-upload state — the stored file and the freshly
generated session identifier are retained. -/
theorem handleFileUpload_failure_counterexample :
    (handleFileUpload ⟨"resume.pdf", "application/pdf"⟩ "sid-1"
        ExtractResult.err ⟨none, "", false, ""⟩).state ≠
      ⟨none, "", false, ""⟩ := by decide

/-- Claim C5 (amended): if the extraction call fails during resume upload, an
error toast is surfaced and the flow is left ready for retry — the derived
status text keeps its pre-upload value (so submission stays blocked) and
processing is reset — but the stored file and the newly generated session
identifier are retained from the failed attempt. -/
theorem handleFileUpload_failure (s : UploadState) (file : UploadFile)
    (id : String) (h : strContains file.type "pdf" = true) :
    handleFileUpload file id ExtractResult.err s =
      { state := { s with resumeFile := some file, sessionId := id,
                          isProcessing := false },
        toasts := ["Error processing resume"], networkCalled := true } := by
  have hne : ¬ file.type = "" := by
    intro he
    rw [he] at h
    exact absurd h (by decide)
  simp [handleFileUpload, hne, h]

/-- Witness for the amended C5 at a concrete PDF file. -/
theorem handleFileUpload_failure_witness :
    handleFileUpload ⟨"resume.pdf", "application/pdf"⟩ "sid-1"
        ExtractResult.err ⟨none, "", false, ""⟩ =
      { state := { resumeFile := some ⟨"resume.pdf", "application/pdf"⟩,
                   resumeContent := "", isProcessing := false,
                   sessionId := "sid-1" },
        toasts := ["Error processing resume"], networkCalled := true } :=
  handleFileUpload_failure ⟨none, "", false, ""⟩
    ⟨"resume.pdf", "application/pdf"⟩ "sid-1" (by decide)

/-! ## Claim C2 — two-question scenario and source-type tags -/

/-- Claim C2 counterexample: in the two-question scenario (record
"hello world" finalized for Q1, advance, record nothing for Q2 with retained
manual answer "N/A", advance) the completion payload tags the second answer
`"role"` — because the component's role-question count is fixed at 7 — not
`"resume"` as the claim (assuming role-count = 1) expects. -/
theorem scenario_two_questions_counterexample :
    (handleNext ["Q1", "Q2"]
        { (handleNext ["Q1", "Q2"]
            (stopSTT (onresult [(true, "hello world")] initState))).1 with
          currentAnswer := "N/A" }).2 =
      some [⟨"Q1", "hello world", "role"⟩, ⟨"Q2", "N/A", "role"⟩] ∧
    some ([⟨"Q1", "hello world", "role"⟩, ⟨"Q2", "N/A", "role"⟩] : List Answer) ≠
      some [⟨"Q1", "hello world", "role"⟩, ⟨"Q2", "N/A", "resume"⟩] := by
  decide

/-- Claim C2 (amended): in the same scenario the completion callback receives
`[{Q1, "hello world", "role"}, {Q2, "N/A", "role"}]`, since the code fixes the
role-question count at 7; in general each appended answer's source-type tag is
`"role"` for ordinal positions below `COUNT_ROLE` (7) and `"resume"`
otherwise. -/
theorem scenario_two_questions :
    (handleNext ["Q1", "Q2"]
        { (handleNext ["Q1", "Q2"]
            (stopSTT (onresult [(true, "hello world")] initState))).1 with
          currentAnswer := "N/A" }).2 =
      some [⟨"Q1", "hello world", "role"⟩, ⟨"Q2", "N/A", "role"⟩] ∧
    (∀ (questions : List String) (s : InterviewState),
      (mkNewAnswer questions s).type =
        if s.currentQuestionIndex < COUNT_ROLE then "role" else "resume") :=
  ⟨by decide, fun _ _ => rfl⟩

/-! ## Claim C4 — retreat restores the stored answer -/

/-- Claim C4 counterexample: retreating while a recorded transcript is still
present (the user recorded at Q2 and pressed Previous without advancing) does
not make the stored Q1 answer the displayed value — the leftover transcript
is displayed instead. -/
theorem handlePrevious_display_counterexample :
    displayedValue (handlePrevious
        { initState with currentQuestionIndex := 1, transcript := "x",
                         answers := [⟨"Q1", "stored", "role"⟩] }) = "x" ∧
    ("x" : String) ≠ "stored" := by decide

/-- Claim C4 (amended): when the user retreats from question index `i + 1` to
`i` with both transcript fields empty (as they are immediately after an
advance), the index steps back, the already-appended answer sequence is
unchanged (neither cleared nor extended), and the stored answer previously
appended at position `i` (or `""` if absent) becomes the displayed value of
the editable answer field. -/
theorem handlePrevious_restores (s : InterviewState)
    (h : 0 < s.currentQuestionIndex) (ht : s.transcript = "")
    (hi : s.interim = "") :
    (handlePrevious s).currentQuestionIndex = s.currentQuestionIndex - 1 ∧
    (handlePrevious s).answers = s.answers ∧
    displayedValue (handlePrevious s) =
      ((s.answers.get? (s.currentQuestionIndex - 1)).map Answer.answer).getD
        "" := by
  have hp : handlePrevious s =
      { s with currentQuestionIndex := s.currentQuestionIndex - 1,
               currentAnswer :=
                 ((s.answers.get? (s.currentQuestionIndex - 1)).map
                   Answer.answer).getD "" } := by
    simp [handlePrevious, h]
  refine ⟨by rw [hp], by rw [hp], ?_⟩
  rw [hp]
  simp [displayedValue, effectiveTranscript, ht, hi, jsTrim, dropWs]

/-- Witness for the amended C4 at a concrete two-question state. -/
theorem handlePrevious_restores_witness :
    (handlePrevious
        { initState with currentQuestionIndex := 1,
                         answers := [⟨"Q1", "A1", "role"⟩] }).currentQuestionIndex
        = 0 ∧
    (handlePrevious
        { initState with currentQuestionIndex := 1,
                         answers := [⟨"Q1", "A1", "role"⟩] }).answers =
      [⟨"Q1", "A1", "role"⟩] ∧
    displayedValue (handlePrevious
        { initState with currentQuestionIndex := 1,
                         answers := [⟨"Q1", "A1", "role"⟩] }) = "A1" :=
  handlePrevious_restores
    { initState with currentQuestionIndex := 1,
                     answers := [⟨"Q1", "A1", "role"⟩] }
    (by decide) rfl rfl

/-! ## Claim C1 — advancing past the last question -/

theorem handleNext_mid (questions : List String) (s : InterviewState)
    (h : s.currentQuestionIndex < questions.length - 1) :
    handleNext questions s =
      ({ s with answers := s.answers ++ [mkNewAnswer questions s],
                currentQuestionIndex := s.currentQuestionIndex + 1,
                isRecording := false, transcript := "", interim := "",
                answeredOnce := addOnce s.currentQuestionIndex s.answeredOnce },
       none) := by
  simp [handleNext, h]

theorem handleNext_last (questions : List String) (s : InterviewState)
    (h : ¬ s.currentQuestionIndex < questions.length - 1) :
    handleNext questions s =
      ({ s with answers := s.answers ++ [mkNewAnswer questions s] },
       some (s.answers ++ [mkNewAnswer questions s])) := by
  simp [handleNext, h]

/-- One `onNext` payload is produced by a block of `m + 1` consecutive
advances that ends exactly at the last question, and it extends the current
answer sequence by one entry per advance. -/
theorem runNav_advance_run (questions : List String) :
    ∀ (m : Nat) (s : InterviewState),
      s.currentQuestionIndex + (m + 1) = questions.length →
      ∃ p, (runNav questions (List.replicate (m + 1) NavAction.advance) s).2 =
              [p] ∧
           p.length = s.answers.length + (m + 1) := by
  intro m
  induction m with
  | zero =>
    intro s h
    have hnot : ¬ s.currentQuestionIndex < questions.length - 1 := by omega
    refine ⟨s.answers ++ [mkNewAnswer questions s], ?_, by simp⟩
    simp [List.replicate, runNav, handleNext_last questions s hnot]
  | succ k ih =>
    intro s h
    have hlt : s.currentQuestionIndex < questions.length - 1 := by omega
    have hrw : runNav questions
        (List.replicate (k + 1 + 1) NavAction.advance) s =
        runNav questions (List.replicate (k + 1) NavAction.advance)
          { s with answers := s.answers ++ [mkNewAnswer questions s],
                   currentQuestionIndex := s.currentQuestionIndex + 1,
                   isRecording := false, transcript := "", interim := "",
                   answeredOnce :=
                     addOnce s.currentQuestionIndex s.answeredOnce } := by
      rw [List.replicate_succ]
      simp [runNav, handleNext_mid questions s hlt]
    rw [hrw]
    obtain ⟨p, hp1, hp2⟩ := ih
      { s with answers := s.answers ++ [mkNewAnswer questions s],
               currentQuestionIndex := s.currentQuestionIndex + 1,
               isRecording := false, transcript := "", interim := "",
               answeredOnce := addOnce s.currentQuestionIndex s.answeredOnce }
      (by simp; omega)
    refine ⟨p, hp1, ?_⟩
    simp at hp2
    omega

/-- Claim C1 counterexample: with the two-question list, the trace
advance–retreat–advance–advance reaches the completion callback with an
answer sequence of length 3, not 2 — backward navigation followed by
re-advancing appends duplicate entries, so the sequence length is not the
number of questions. -/
theorem runNav_retreat_counterexample :
    ((runNav ["Q1", "Q2"]
        [NavAction.advance, NavAction.retreat, NavAction.advance,
         NavAction.advance] initState).2.map List.length) = [3] ∧
    (3 : Nat) ≠ 2 := by decide

/-- Claim C1 (amended): for every non-empty question list, when the user
advances through the questions without any backward navigation, the
completion callback `onNext` is invoked exactly once and the answer sequence
it receives has length equal to the number of questions.  (With retreats in
between, each retreat-then-re-advance appends an additional entry, so the
delivered sequence is longer.) -/
theorem runNav_straight_through (questions : List String)
    (h : questions ≠ []) :
    ∃ p, (runNav questions
            (List.replicate questions.length NavAction.advance)
            initState).2 = [p] ∧
         p.length = questions.length := by
  have hlen : 0 < questions.length := List.length_pos.mpr h
  obtain ⟨p, hp1, hp2⟩ := runNav_advance_run questions
    (questions.length - 1) initState (by simp [initState]; omega)
  rw [Nat.sub_add_cancel hlen] at hp1 hp2
  exact ⟨p, hp1, by simpa [initState] using hp2⟩

/-- Witness for the amended C1 on a concrete two-question list. -/
theorem runNav_straight_through_witness :
    ∃ p, (runNav ["A", "B"]
            (List.replicate (["A", "B"] : List String).length
              NavAction.advance) initState).2 = [p] ∧
         p.length = (["A", "B"] : List String).length :=
  runNav_straight_through ["A", "B"] (by decide)

/-! ## Claim C3 — native transcript composition -/

theorem string_data_append (a b : String) :
    (a ++ b).data = a.data ++ b.data := rfl

theorem string_ne_empty_of_data {s : String} (h : s.data ≠ []) : s ≠ "" := by
  intro he
  exact h (by rw [he])

theorem string_empty_append (s : String) : "" ++ s = s := rfl

theorem joinSp_concat (l : List String) (x : String) :
    joinSp (l ++ [x]) = if l = [] then x else joinSp l ++ " " ++ x := by
  induction l with
  | nil => rfl
  | cons a t ih =>
    cases t with
    | nil => rfl
    | cons b r =>
      rw [List.cons_append, List.cons_append]
      show a ++ " " ++ joinSp (b :: (r ++ [x])) = _
      rw [← List.cons_append, ih]
      rw [if_neg (by simp : ¬ (b :: r) = []),
          if_neg (by simp : ¬ (a :: b :: r) = [])]
      show a ++ " " ++ (joinSp (b :: r) ++ " " ++ x) =
        (a ++ " " ++ joinSp (b :: r)) ++ " " ++ x
      simp [String.append_assoc]

theorem joinSp_ne_empty (l : List String) (h : ∀ x ∈ l, x ≠ "")
    (hl : l ≠ []) : joinSp l ≠ "" := by
  match l with
  | [x] => simpa [joinSp] using h x (by simp)
  | x :: y :: r =>
    apply string_ne_empty_of_data
    show ((x ++ " ") ++ joinSp (y :: r)).data ≠ []
    rw [string_data_append, string_data_append]
    simp

theorem foldEvents_cons (e : SpeechEvent) (rest : List SpeechEvent)
    (s : InterviewState) :
    foldEvents (e :: rest) s = foldEvents rest (onresult e s) := rfl

/-- When an event finalizes nothing, `onresult` leaves the committed
transcript unchanged. -/
theorem onresult_transcript_of_empty (e : SpeechEvent) (s : InterviewState)
    (hf : String.join (finalsOf e) = "") :
    (onresult e s).transcript = s.transcript := by
  simp [onresult, hf]

/-- When an event finalizes non-empty text, `onresult` appends its trimmed
form with a single separating space if the transcript was non-empty. -/
theorem onresult_transcript_of_final (e : SpeechEvent) (s : InterviewState)
    (hf : ¬ String.join (finalsOf e) = "") :
    (onresult e s).transcript =
      (if s.transcript = "" then "" else s.transcript ++ " ") ++
        jsTrim (String.join (finalsOf e)) := by
  simp [onresult, hf]

/-- Invariant of the event fold: if the committed transcript is the
space-join of a list of non-empty pieces, it stays the space-join of that
list extended by the trimmed finalized text of each event that finalizes
something — provided no event finalizes whitespace-only text. -/
theorem foldEvents_transcript_inv (es : List SpeechEvent)
    (h : ∀ e ∈ es, jsTrim (String.join (finalsOf e)) = "" →
          String.join (finalsOf e) = "") :
    ∀ (acc : List String) (s : InterviewState),
      s.transcript = joinSp acc → (∀ x ∈ acc, x ≠ "") →
      (foldEvents es s).transcript = joinSp (acc ++ eventFinalPieces es) := by
  induction es with
  | nil =>
    intro acc s hs _
    simp [foldEvents, eventFinalPieces, hs]
  | cons e rest ih =>
    intro acc s hs hacc
    have hrest : ∀ e' ∈ rest, jsTrim (String.join (finalsOf e')) = "" →
        String.join (finalsOf e') = "" := fun e' he' => h e' (by simp [he'])
    rw [foldEvents_cons]
    by_cases hf : String.join (finalsOf e) = ""
    · have hpieces : eventFinalPieces (e :: rest) = eventFinalPieces rest := by
        simp [eventFinalPieces, hf]
      rw [hpieces]
      exact ih hrest acc (onresult e s)
        ((onresult_transcript_of_empty e s hf).trans hs) hacc
    · have hx : jsTrim (String.join (finalsOf e)) ≠ "" := fun hxe =>
        hf (h e (by simp) hxe)
      have hpieces : eventFinalPieces (e :: rest) =
          jsTrim (String.join (finalsOf e)) :: eventFinalPieces rest := by
        simp [eventFinalPieces, hf]
      have hnew : (onresult e s).transcript =
          joinSp (acc ++ [jsTrim (String.join (finalsOf e))]) := by
        rw [onresult_transcript_of_final e s hf, joinSp_concat]
        by_cases hac : acc = []
        · subst hac
          simp only [joinSp] at hs
          simp [hs, string_empty_append]
        · have hjoin : joinSp acc ≠ "" := joinSp_ne_empty acc hacc hac
          rw [hs, if_neg hjoin, if_neg hac]
      have hstep := ih hrest (acc ++ [jsTrim (String.join (finalsOf e))])
        (onresult e s) hnew
        (by
          intro y hy
          rcases List.mem_append.mp hy with hy | hy
          · exact hacc y hy
          · simp at hy
            rw [hy]
            exact hx)
      rw [hpieces]
      rw [hstep, List.append_assoc]
      rfl

/-- Claim C3 counterexample: a single event finalizing the two fragments
"a" and "b" commits `"ab"` — the fragments of one event are concatenated
without spaces — whereas the space-joined concatenation of all finalized
fragments in arrival order is `"a b"`. -/
theorem onresult_counterexample :
    (foldEvents [[(true, "a"), (true, "b")]] initState).transcript = "ab" ∧
    joinSp (( [[(true, "a"), (true, "b")]] : List SpeechEvent).flatMap
      finalsOf) = "a b" ∧
    ("ab" : String) ≠ "a b" := by decide

/-- Claim C3 (amended): for every sequence of incremental native-recognition
result events, the committed transcript equals the space-joined concatenation
— over the events whose finalized text is non-empty, in arrival order — of
each event's trimmed finalized text, where an event's finalized text is the
direct (unspaced) concatenation of its finalized fragments, provided no event
finalizes whitespace-only text; and after each event the interim transcript
equals the trimmed direct concatenation of exactly that latest event's
not-yet-finalized fragments (it is replaced, never accumulated). -/
theorem foldEvents_compose (es : List SpeechEvent) (e : SpeechEvent)
    (h : ∀ e' ∈ es ++ [e], jsTrim (String.join (finalsOf e')) = "" →
          String.join (finalsOf e') = "") :
    (foldEvents (es ++ [e]) initState).transcript =
      joinSp (eventFinalPieces (es ++ [e])) ∧
    (foldEvents (es ++ [e]) initState).interim =
      jsTrim (String.join (interimsOf e)) := by
  constructor
  · simpa using foldEvents_transcript_inv (es ++ [e]) h [] initState rfl
      (by simp)
  · rw [foldEvents, List.foldl_append]
    rfl

/-- Witness for the amended C3 on a concrete event sequence. -/
theorem foldEvents_compose_witness :
    (foldEvents ([[(true, "hello")], [(false, "wor")]] ++
        [[(true, "world"), (false, "mo")]]) initState).transcript =
      joinSp (eventFinalPieces ([[(true, "hello")], [(false, "wor")]] ++
        [[(true, "world"), (false, "mo")]])) ∧
    (foldEvents ([[(true, "hello")], [(false, "wor")]] ++
        [[(true, "world"), (false, "mo")]]) initState).interim =
      jsTrim (String.join (interimsOf [(true, "world"), (false, "mo")])) :=
  foldEvents_compose [[(true, "hello")], [(false, "wor")]]
    [(true, "world"), (false, "mo")] (by decide)

/-! ## Claim C9 — session identifier shape -/

theorem hexDigit_isHex : ∀ n, n < 16 → isHexChar (hexDigit n) = true := by
  decide

theorem hexDigit_variant_aux : ∀ m, m < 4 →
    (hexDigit (m ||| 8) == '8' || hexDigit (m ||| 8) == '9' ||
     hexDigit (m ||| 8) == 'a' || hexDigit (m ||| 8) == 'b') = true := by
  decide

theorem hexDigit_variant (n : Nat) :
    (hexDigit ((n &&& 3) ||| 8) == '8' || hexDigit ((n &&& 3) ||| 8) == '9' ||
     hexDigit ((n &&& 3) ||| 8) == 'a' ||
     hexDigit ((n &&& 3) ||| 8) == 'b') = true :=
  hexDigit_variant_aux (n &&& 3) (Nat.lt_succ_of_le Nat.and_le_right)

/-- Claim C9: every session identifier produced by the client-side generator
(for any stream of random nibbles below 16, the range of
`Math.random()*16|0`) is a 36-character string in the canonical grouped-hex
UUID layout — 8-4-4-4-12 hex digits separated by hyphens — with the version
nibble fixed to `4` and the variant nibble in `{8, 9, a, b}`. -/
theorem generateUUID_canonical (r : Nat → Nat) (h : ∀ k, r k < 16) :
    uuidCanonical (generateUUID r) = true := by
  have e : (generateUUID r).data =
      [hexDigit (r 0), hexDigit (r 1), hexDigit (r 2), hexDigit (r 3),
       hexDigit (r 4), hexDigit (r 5), hexDigit (r 6), hexDigit (r 7), '-',
       hexDigit (r 8), hexDigit (r 9), hexDigit (r 10), hexDigit (r 11), '-',
       '4', hexDigit (r 12), hexDigit (r 13), hexDigit (r 14), '-',
       hexDigit ((r 15 &&& 3) ||| 8), hexDigit (r 16), hexDigit (r 17),
       hexDigit (r 18), '-',
       hexDigit (r 19), hexDigit (r 20), hexDigit (r 21), hexDigit (r 22),
       hexDigit (r 23), hexDigit (r 24), hexDigit (r 25), hexDigit (r 26),
       hexDigit (r 27), hexDigit (r 28), hexDigit (r 29),
       hexDigit (r 30)] := rfl
  have hslots : checkSlots (generateUUID r).data uuidSlots = true := by
    rw [e]
    simp only [uuidSlots, checkSlots, slotOk, Bool.and_eq_true]
    repeat' apply And.intro
    all_goals first
      | exact hexDigit_isHex _ (h _)
      | exact hexDigit_variant _
      | decide
  have hlen : ((generateUUID r).length == 36) = true := rfl
  show (((generateUUID r).length == 36) &&
    checkSlots (generateUUID r).data uuidSlots) = true
  rw [hlen, hslots]
  decide

/-- Witness for C9 at a concrete nibble stream. -/
theorem generateUUID_canonical_witness :
    uuidCanonical (generateUUID fun _ => 5) = true :=
  generateUUID_canonical (fun _ => 5) (fun _ => (by decide : (5 : Nat) < 16))
